import Mathlib

/-!
Verification of the simpleWorkflow scheduling engine against its
specification.  The Python source (app/DateTimeParser.py,
app/ScriptExecutor.py, app/TaskScheduler.py, app/DynamicTaskScheduler.py)
is shallowly embedded below: datetimes are modelled as proleptic-Gregorian
day counts plus seconds (`toSecs`), `datetime.strptime` is modelled by a
backtracking matcher over the exact digit patterns CPython's `_strptime`
compiles for the directives `%Y %m %d %H %M %S`, and the scheduler's
mutable ledger is an association list mirroring the `completed_tasks`
dictionary.
-/

/-- Numeric value of a decimal digit character. -/
def digitVal (c : Char) : Nat := c.toNat - '0'.toNat

/-- Character range test used by the digit patterns. -/
def charBetween (lo hi c : Char) : Bool := lo ≤ c && c ≤ hi

/-- Decimal digit test (the `\d` class restricted to ASCII, as in the
fixed-width date strings we model). -/
def isDig (c : Char) : Bool := charBetween '0' '9' c

/-- Value of a list of decimal digits, most significant first. -/
def natOfDigits (cs : List Char) : Nat :=
  cs.foldl (fun a c => a * 10 + digitVal c) 0

/-- A calendar datetime as produced by `datetime.strptime`
(`DateTimeParser.py` works with `datetime.datetime` values). -/
structure DateTime where
  year : Nat
  month : Nat
  day : Nat
  hour : Nat
  minute : Nat
  second : Nat
deriving DecidableEq, Repr

/-- Gregorian leap-year rule (Python's `calendar.isleap`). -/
def isLeap (y : Nat) : Bool := (y % 4 == 0 && y % 100 != 0) || y % 400 == 0

/-- Days in a month of a given year. -/
def daysInMonth (y m : Nat) : Nat :=
  match m with
  | 1 => 31 | 2 => if isLeap y then 29 else 28 | 3 => 31
  | 4 => 30 | 5 => 31 | 6 => 30 | 7 => 31 | 8 => 31
  | 9 => 30 | 10 => 31 | 11 => 30 | 12 => 31
  | _ => 0

/-- Days in the months of year `y` strictly before month `m`. -/
def daysBeforeMonth (y m : Nat) : Nat :=
  ((List.range (m - 1)).map (fun i => daysInMonth y (i + 1))).sum

/-- Days in the proleptic Gregorian calendar strictly before Jan 1 of
year `y` (year 1 is day 0). -/
def daysBeforeYear (y : Nat) : Nat :=
  365 * (y - 1) + ((y - 1) / 4 - (y - 1) / 100 + (y - 1) / 400)

/-- Day number of a datetime's date (Jan 1 of year 1 is day 0). -/
def toDayNumber (dt : DateTime) : Nat :=
  daysBeforeYear dt.year + daysBeforeMonth dt.year dt.month + (dt.day - 1)

/-- Seconds of the time-of-day component. -/
def timeOfDaySecs (dt : DateTime) : Nat :=
  dt.hour * 3600 + dt.minute * 60 + dt.second

/-- A datetime as an absolute number of seconds.  `datetime` arithmetic
with `timedelta` (`DateTimeParser.py` adds/subtracts timedeltas and
`ScriptExecutor.py` compares datetimes) is exactly arithmetic and order
on this value. -/
def toSecs (dt : DateTime) : Int :=
  ((toDayNumber dt * 86400 + timeOfDaySecs dt : Nat) : Int)

/-! ### The `strptime` digit patterns

CPython's `_strptime` compiles `%Y` to `\d\d\d\d`, `%m` to
`1[0-2]|0[1-9]|[1-9]`, `%d` to `3[01]|[1-2]\d|0[1-9]|[1-9]`,
`%H` to `2[0-3]|[0-1]\d|\d`, `%M` to `[0-5]\d|\d` and
`%S` to `6[0-1]|[0-5]\d|\d`, concatenates them, and matches with
`re.match` (leftmost match, alternatives tried in order, full
backtracking); afterwards it raises `ValueError` when unconverted data
remains.  An alternative is a function consuming a prefix. -/

/-- One regex alternative: consume a prefix, return its value. -/
def StrpAlt := List Char → Option (Nat × List Char)

/-- Two-character alternative built from two character tests. -/
def alt2 (p1 p2 : Char → Bool) : StrpAlt := fun cs =>
  match cs with
  | c1 :: c2 :: rest =>
    if p1 c1 && p2 c2 then some (digitVal c1 * 10 + digitVal c2, rest) else none
  | _ => none

/-- One-character alternative built from a character test. -/
def alt1 (p : Char → Bool) : StrpAlt := fun cs =>
  match cs with
  | c :: rest => if p c then some (digitVal c, rest) else none
  | _ => none

/-- The `%Y` pattern: exactly four digits. -/
def altYear : StrpAlt := fun cs =>
  match cs with
  | c1 :: c2 :: c3 :: c4 :: rest =>
    if isDig c1 && isDig c2 && isDig c3 && isDig c4 then
      some (digitVal c1 * 1000 + digitVal c2 * 100 + digitVal c3 * 10 + digitVal c4, rest)
    else none
  | _ => none

/-- A directive is its ordered list of alternatives. -/
def StrpDir := List StrpAlt

/-- `%Y` directive. -/
def dirY : StrpDir := [altYear]

/-- `%m` directive: `1[0-2]|0[1-9]|[1-9]`. -/
def dirm : StrpDir :=
  [alt2 (· = '1') (charBetween '0' '2'),
   alt2 (· = '0') (charBetween '1' '9'),
   alt1 (charBetween '1' '9')]

/-- `%d` directive: `3[01]|[1-2]\d|0[1-9]|[1-9]`. -/
def dird : StrpDir :=
  [alt2 (· = '3') (charBetween '0' '1'),
   alt2 (charBetween '1' '2') isDig,
   alt2 (· = '0') (charBetween '1' '9'),
   alt1 (charBetween '1' '9')]

/-- `%H` directive: `2[0-3]|[0-1]\d|\d`. -/
def dirH : StrpDir :=
  [alt2 (· = '2') (charBetween '0' '3'),
   alt2 (charBetween '0' '1') isDig,
   alt1 isDig]

/-- `%M` directive: `[0-5]\d|\d`. -/
def dirM : StrpDir :=
  [alt2 (charBetween '0' '5') isDig, alt1 isDig]

/-- `%S` directive: `6[0-1]|[0-5]\d|\d` (leap seconds allowed by the
pattern; `datetime`'s constructor rejects them later). -/
def dirS : StrpDir :=
  [alt2 (· = '6') (charBetween '0' '1'),
   alt2 (charBetween '0' '5') isDig,
   alt1 isDig]

/-- Try each alternative of a directive in order; on success continue
with the rest of the pattern (the continuation `k`), backtracking to
the next alternative when the continuation fails. -/
def firstSome (alts : List StrpAlt) (k : List Char → Option (List Nat × List Char))
    (cs : List Char) : Option (List Nat × List Char) :=
  match alts with
  | [] => none
  | a :: as =>
    match a cs with
    | none => firstSome as k cs
    | some (v, cs') =>
      match k cs' with
      | some (vs, rest) => some (v :: vs, rest)
      | none => firstSome as k cs

/-- Backtracking match of a directive sequence against input, mirroring
`re.match` on the concatenated patterns: returns the first successful
parse in preference order, together with the unconsumed rest. -/
def matchSeq : List StrpDir → List Char → Option (List Nat × List Char)
  | [], cs => some ([], cs)
  | d :: ds, cs => firstSome d (matchSeq ds) cs

/-- The six format prefixes tried by `TimeParser.parse_meteo_date`
(`date_formats = ["%Y","%Y%m","%Y%m%d","%Y%m%d%H","%Y%m%d%H%M","%Y%m%d%H%M%S"]`). -/
def meteoDirs : List StrpDir := [dirY, dirm, dird, dirH, dirM, dirS]

/-- Build the datetime `strptime` returns from the matched field values
(fields default like CPython: year 1900, month 1, day 1, zero time), or
`none` when `datetime`'s constructor would raise `ValueError`
(year 0, day beyond the month, or a leap second). -/
def mkStrptimeDate (vals : List Nat) : Option DateTime :=
  let y := vals.getD 0 1900
  let mo := vals.getD 1 1
  let d := vals.getD 2 1
  let h := vals.getD 3 0
  let mi := vals.getD 4 0
  let s := vals.getD 5 0
  if 1 ≤ y ∧ 1 ≤ d ∧ d ≤ daysInMonth y mo ∧ s ≤ 59 then
    some ⟨y, mo, d, h, mi, s⟩
  else none

/-- One iteration of the loop in `parse_meteo_date`:
`datetime.strptime(text, date_format)` for the format made of the first
`k` directives.  Fails when the pattern does not match, when unconverted
data remains after the first match, or when the datetime is invalid. -/
def strptimeMeteo (k : Nat) (cs : List Char) : Option DateTime :=
  match matchSeq (meteoDirs.take k) cs with
  | some (vals, []) => mkStrptimeDate vals
  | _ => none

/-- `TimeParser.parse_meteo_date`: try the six fixed-width formats in
order, returning the first that parses; `none` models the final
`raise ValueError("Invalid date format")`. -/
def parse_meteo_date (s : String) : Option DateTime :=
  let cs := s.data
  (strptimeMeteo 1 cs) <|> (strptimeMeteo 2 cs) <|> (strptimeMeteo 3 cs) <|>
  (strptimeMeteo 4 cs) <|> (strptimeMeteo 5 cs) <|> (strptimeMeteo 6 cs)

/-- `datetime.replace` on the fields changed by `map_keywords_to_dates`:
keeps every other field (in particular the time of day) unchanged. -/
def dtReplace (dt : DateTime) (y m d : Nat) : DateTime :=
  { dt with year := y, month := m, day := d }

/-- `TimeParser.map_keywords_to_dates`, as a lookup keyed by the
expression text: every value is a pure function of the reference instant
`self.current_time` captured once at construction
(`self.current_time = datetime.now()`).  Results are in seconds;
adding or subtracting a `timedelta` is seconds arithmetic. -/
def map_keywords_to_dates (ref : DateTime) (key : String) : Option Int :=
  if key = "today" then some (toSecs ref)
  else if key = "tomorrow" then some (toSecs ref + 86400)
  else if key = "yesterday" then some (toSecs ref - 86400)
  else if key = "now" then some (toSecs ref)
  else if key = "start_of_month" then some (toSecs (dtReplace ref ref.year ref.month 1))
  else if key = "end_of_month" then
    some (toSecs (dtReplace ref ref.year (ref.month % 12 + 1) 1) - 86400)
  else if key = "start_of_year" then some (toSecs (dtReplace ref ref.year 1 1))
  else if key = "end_of_year" then some (toSecs (dtReplace ref ref.year 12 31))
  else if key = "next_week" then some (toSecs ref + 7 * 86400)
  else if key = "last_week" then some (toSecs ref - 7 * 86400)
  else if key = "beginning_of_next_month" then
    some (toSecs (dtReplace ref ref.year (ref.month % 12 + 1) 1))
  else if key = "end_of_next_month" then
    some (toSecs (dtReplace ref (ref.year + ref.month / 12) (ref.month % 12 + 1) 1) - 86400)
  else none

/-- `TimeParser.parse_date`: keyword table first, then
`parse_meteo_date`, then the `dateutil.parser.parse` fallback.  The
fallback is third-party code, so it is a parameter `freeform`; `none`
models the final `raise ValueError("Invalid date format")`. -/
def parse_date (ref : DateTime) (freeform : String → Option Int) (s : String) : Option Int :=
  match map_keywords_to_dates ref s with
  | some v => some v
  | none =>
    match parse_meteo_date s with
    | some dt => some (toSecs dt)
    | none => freeform s

/-- Word characters of the `name` group `[A-Za-z0-9_]+` in
`parse_expression`'s pattern. -/
def isWordChar (c : Char) : Bool :=
  charBetween 'A' 'Z' c || charBetween 'a' 'z' c || isDig c || c = '_'

/-- One optional duration component `(?P<days>\d+d)?` (and likewise for
`h`, `m`, `s`): the greedy digit run must be nonempty and be followed by
the unit letter, else the group matches empty and the position is
unchanged (the component defaults to 0). -/
def durComponent (unit : Char) (cs : List Char) : Nat × List Char :=
  let digs := cs.takeWhile isDig
  let rest := cs.dropWhile isDig
  if digs ≠ [] ∧ rest.head? = some unit then (natOfDigits digs, rest.tail)
  else (0, cs)

/-- `TimeParser.parse_expression`.  The pattern
`(?P<name>[A-Za-z0-9_]+)(?P<sign>[+-])?((?P<days>\d+d)?((?P<hours>\d+h)?((?P<minutes>\d+m)?((?P<seconds>\d+s)?)?)?)?)?`
is matched with `re.match`, which is not anchored at the end: any
unmatched tail of the expression is silently dropped.  The greedy `name`
group takes the maximal word-character prefix (every later group may
match empty, so the regex never backtracks into `name`).  Each component
is signed individually in `calculate_time_increment` with the single
captured sign (a missing sign takes the `else` branch, negating the
already-zero components), which equals applying the sign to the summed
duration.  `none` covers both a failed regex match (the code returns
`None`) and a `ValueError` escaping from `parse_date`. -/
def parse_expression (ref : DateTime) (freeform : String → Option Int) (s : String) : Option Int :=
  let cs := s.data
  let nameCs := cs.takeWhile isWordChar
  if nameCs = [] then none
  else
    let rest0 := cs.dropWhile isWordChar
    let signPos : Bool := rest0.head? = some '+'
    let rest1 := if rest0.head? = some '+' ∨ rest0.head? = some '-' then rest0.tail else rest0
    let (dv, rest2) := durComponent 'd' rest1
    let (hv, rest3) := durComponent 'h' rest2
    let (mv, rest4) := durComponent 'm' rest3
    let (sv, _) := durComponent 's' rest4
    let total : Int := (dv : Int) * 86400 + (hv : Int) * 3600 + (mv : Int) * 60 + (sv : Int)
    let inc : Int := if signPos then total else -total
    match parse_date ref freeform (String.mk nameCs) with
    | some date => some (date + inc)
    | none => none

/-- `TimeParser.parse_time_expression`, used for the While `increment`
clause.  Pattern `(?P<sign>[+-]?)(?P<value>\d+)(?P<unit>[dhms]?)` with
`re.match`: optional sign (default `+`), required digit run, optional
unit (default seconds); any trailing text — including an unknown unit
letter — is silently ignored.  `none` models the
`raise ValueError("Invalid time expression")` on a failed match.  The
result is the signed duration in seconds. -/
def parse_time_expression (s : String) : Option Int :=
  let cs := s.data
  let signPos : Bool := cs.head? ≠ some '-'
  let cs1 := if cs.head? = some '+' ∨ cs.head? = some '-' then cs.tail else cs
  let digs := cs1.takeWhile isDig
  if digs = [] then none
  else
    let rest := cs1.dropWhile isDig
    let unitSecs : Nat :=
      match rest.head? with
      | some 'd' => 86400
      | some 'h' => 3600
      | some 'm' => 60
      | some 's' => 1
      | _ => 1
    let total : Int := (natOfDigits digs * unitSecs : Nat)
    some (if signPos then total else -total)

/-! ### ScriptExecutor.run_while_block

`run_while_block` resolves `from`/`to` with `parse_expression`, the
`increment` with `parse_time_expression`, and then runs
`current_date = from_date; while current_date < to_date: (run body);
current_date += increment`.  The body commands are abstracted by an
oracle `bodyOk` giving the body's success at each iteration instant
(`current_date.strftime` formatting and nested While blocks only decide
that success); a failing body returns `False` immediately, aborting the
loop.  The `while` statement itself has no termination guarantee, so the
recursion carries explicit fuel: `none` means the loop is still running
after `fuel` iterations — the source diverges exactly when every fuel
runs out. -/

/-- The loop of `run_while_block`: returns the overall result together
with the list of instants at which the body was invoked, or `none` if
`fuel` iterations did not finish the loop. -/
def runWhileAux (toD inc : Int) (bodyOk : Int → Bool) : Nat → Int → Option (Bool × List Int)
  | 0, cur => if cur < toD then none else some (true, [])
  | fuel + 1, cur =>
    if cur < toD then
      if bodyOk cur then
        (runWhileAux toD inc bodyOk fuel (cur + inc)).map (fun r => (r.1, cur :: r.2))
      else some (false, [cur])
    else some (true, [])

/-! ### TaskScheduler

`completed_tasks` maps a task name to either `{"status": "success"}`
(no attempts key) or `{"status": "failed", "max_attempts": k}` — the
dictionary key `max_attempts` holds the failure count.  A Python dict is
modelled as an association list where the newest binding wins, which is
exactly dict assignment. -/

/-- A `completed_tasks` entry. -/
inductive Entry where
  | success : Entry
  | failed : Nat → Entry
deriving DecidableEq, Repr

/-- The scheduler's completion ledger (`self.completed_tasks`). -/
def Ledger := List (String × Entry)
deriving instance DecidableEq for Ledger

/-- Dictionary lookup: newest binding first. -/
def lookup : Ledger → String → Option Entry
  | [], _ => none
  | (m, e) :: rest, n => if m = n then some e else lookup rest n

/-- Dictionary assignment `self.completed_tasks[name] = entry`. -/
def lset (led : Ledger) (n : String) (e : Entry) : Ledger := (n, e) :: led

/-- A scheduled task as built by `create_base_task`: name, optional
`HH:MM` time, dependency names (the code wraps a single string into a
one-element list, so a list loses no generality), `max_attempts`, and
the subtasks (themselves `create_base_task` dictionaries, named here). -/
structure SchedTask where
  name : String
  time : Option String
  depends_on : List String
  max_attempts : Nat
  subtasks : List String
deriving DecidableEq, Repr

/-- `TaskScheduler.is_task_completed`: true exactly when the ledger
entry exists with status `success`. -/
def is_task_completed (led : Ledger) (n : String) : Bool :=
  match lookup led n with
  | some Entry.success => true
  | _ => false

/-- `TaskScheduler.check_dependencies`: empty list is vacuously
satisfied (`if not dependencies: return True`); otherwise every
dependency must be completed successfully. -/
def check_dependencies (led : Ledger) (deps : List String) : Bool :=
  deps.all (is_task_completed led)

/-- `TaskScheduler.check_max_attempts`: returns `False` (blocked) only
when the ledger has a failed entry whose count has reached
`max_attempts`; in every other case the task may run. -/
def check_max_attempts (led : Ledger) (n : String) (maxA : Nat) : Bool :=
  match lookup led n with
  | some (Entry.failed k) => decide (k < maxA)
  | _ => true

/-- `TaskScheduler.handle_failure` on the ledger: increment the failure
count, or create a fresh failed entry with count 1.  (On an existing
`success` entry Python would raise `KeyError` reading the missing
`max_attempts` key; that case is unreachable from the scheduler loop,
which never re-executes a succeeded task, and is left as the identity.) -/
def handle_failure (led : Ledger) (n : String) : Ledger :=
  match lookup led n with
  | some (Entry.failed k) => lset led n (Entry.failed (k + 1))
  | some Entry.success => led
  | none => lset led n (Entry.failed 1)

/-- `TaskScheduler.execute_subtask`: runs the subtask's function; its
success is given by the outcome oracle keyed on the subtask name. -/
def execute_subtask (outcome : String → Bool) (st : String) : Bool := outcome st

/-- The subtask sweep in `execute_task`:
`all(self.execute_subtask(subtask) for subtask in task["subtasks"])`.
`all` over a generator stops at the first `False`, so the subtasks after
the first failing one are never executed.  Returns the aggregate result
together with the names of the subtasks actually executed, in order. -/
def runSubtasks (outcome : String → Bool) : List String → Bool × List String
  | [] => (true, [])
  | st :: rest =>
    if execute_subtask outcome st then
      let r := runSubtasks outcome rest
      (r.1, st :: r.2)
    else (false, [st])

/-- `TaskScheduler.execute_task`: run the block
(`task["function"](*task["function_args"])`, success from the oracle
keyed on the task name), then the subtask sweep; the returned success is
the conjunction.  (The `except` branch needs the block or a subtask to
raise, which the oracle does not model; command failures are returned,
not raised.) -/
def execute_task (outcome : String → Bool) (t : SchedTask) : Bool :=
  let success := outcome t.name
  let subs := runSubtasks outcome t.subtasks
  success && subs.1

/-- The per-task eligibility test of `TaskScheduler.start_scheduler`:
schedule matches (a `None` time runs at every tick), not already
completed, dependencies satisfied, attempts remaining. -/
def eligible (led : Ledger) (now : String) (t : SchedTask) : Bool :=
  (match t.time with | none => true | some tm => tm == now)
  && !(is_task_completed led t.name)
  && check_dependencies led t.depends_on
  && check_max_attempts led t.name t.max_attempts

/-- One tick of `TaskScheduler.start_scheduler`'s `for task in
self.tasks` loop: each eligible task is executed synchronously; on
success its ledger entry becomes `success`, on failure `handle_failure`
runs.  Returns the final ledger and, for observability, the executed
tasks each paired with the ledger state at the moment of its
eligibility check. -/
def tick (outcome : String → Bool) (now : String) :
    List SchedTask → Ledger → Ledger × List (SchedTask × Ledger)
  | [], led => (led, [])
  | t :: ts, led =>
    if eligible led now t then
      let led' := if execute_task outcome t then lset led t.name Entry.success
                  else handle_failure led t.name
      let r := tick outcome now ts led'
      (r.1, (t, led) :: r.2)
    else tick outcome now ts led

/-! ### DynamicTaskScheduler.update_tasks

The reload rebinds `self.tasks` to a fresh empty list and then appends
the new tasks one at a time (`self.tasks = []` followed by
`self.add_task(...)` in a loop), with no synchronization against the
scheduler thread reading `self.tasks`.  The shared variable therefore
passes through the following observable states, any of which a
concurrent tick can read. -/

/-- Observable values of `self.tasks` from before the reload to after
it: the old list, then the empty list, then every prefix of the new
list as the appends land. -/
def reloadObservableStates (old new : List SchedTask) : List (List SchedTask) :=
  old :: (List.range (new.length + 1)).map (fun k => new.take k)

/-! ### Helper lemmas and fixed instances used by the theorems -/

/-- A reference instant with a nonzero time of day, standing for an
arbitrary `datetime.now()` captured at `TimeParser` construction. -/
def refJun : DateTime := ⟨2024, 6, 15, 10, 30, 0⟩

/-- A `dateutil.parser.parse` fallback that always fails; the theorems
that use it never reach the fallback. -/
def noFreeform : String → Option Int := fun _ => none

/-- The subtask sweep computes the conjunction of all outcomes and
executes exactly the successful prefix plus the first failing subtask. -/
theorem runSubtasks_eq (o : String → Bool) (l : List String) :
    runSubtasks o l = (l.all o, l.takeWhile o ++ (l.dropWhile o).take 1) := by
  induction l with
  | nil => simp [runSubtasks]
  | cons a l ih =>
    by_cases h : o a <;>
      simp [runSubtasks, execute_subtask, h, ih, List.takeWhile_cons, List.dropWhile_cons]

/-- A finished loop: when the current instant has reached the exclusive
bound, any amount of fuel returns success with no iterations. -/
theorem runWhileAux_done (toD inc : Int) (b : Int → Bool) (fuel : Nat) (cur : Int)
    (h : ¬ cur < toD) : runWhileAux toD inc b fuel cur = some (true, []) := by
  cases fuel <;> simp [runWhileAux, h]

/-- With a non-positive increment and the bound still ahead, the loop
never terminates: every fuel is exhausted. -/
theorem runWhileAux_diverges (toD inc : Int) (b : Int → Bool)
    (hinc : inc ≤ 0) (hb : ∀ x, b x = true) :
    ∀ fuel cur, cur < toD → runWhileAux toD inc b fuel cur = none := by
  intro fuel
  induction fuel with
  | zero => intro cur hcur; simp [runWhileAux, hcur]
  | succ n ih =>
    intro cur hcur
    have hnext : cur + inc < toD := by omega
    simp [runWhileAux, hcur, hb cur, ih (cur + inc) hnext]

theorem while_count_main (t inc : Int) (bodyOk : Int → Bool)
    (hinc : 0 < inc) (hb : ∀ x, bodyOk x = true) :
    ∀ n (f : Int), (t - f).toNat = n →
      ∃ L : List Int,
        (∀ fuel, n ≤ fuel → runWhileAux t inc bodyOk fuel f = some (true, L)) ∧
        L.length = (if f < t then ((t - f).toNat + (inc.toNat - 1)) / inc.toNat else 0) ∧
        List.Pairwise (· < ·) L ∧
        (∀ x ∈ L, f ≤ x ∧ x < t) := by
  intro n
  induction n using Nat.strong_induction_on with
  | _ n ih =>
    intro f hf
    by_cases hft : f < t
    · have hk : 0 < inc.toNat := by omega
      have hn1 : 1 ≤ n := by omega
      have hlt : (t - (f + inc)).toNat < n := by omega
      obtain ⟨L', hrun', hlen', hpw', hmem'⟩ := ih _ hlt (f + inc) rfl
      refine ⟨f :: L', ?_, ?_, ?_, ?_⟩
      · intro fuel hfuel
        obtain ⟨fuel', rfl⟩ : ∃ m, fuel = m + 1 := ⟨fuel - 1, by omega⟩
        have hr := hrun' fuel' (by omega)
        simp [runWhileAux, hft, hb f, hr]
      · have hrhs : (t - f).toNat + (inc.toNat - 1) = ((t - f).toNat - 1) + inc.toNat := by
          omega
        rw [if_pos hft, hrhs, Nat.add_div_right _ hk]
        simp only [List.length_cons]
        by_cases hft2 : f + inc < t
        · rw [hlen', if_pos hft2]
          have h1 : (t - (f + inc)).toNat + (inc.toNat - 1) = (t - f).toNat - 1 := by omega
          rw [h1]
        · rw [hlen', if_neg hft2]
          have h2 : (t - f).toNat - 1 < inc.toNat := by omega
          rw [Nat.div_eq_of_lt h2]
      · refine List.pairwise_cons.mpr ⟨fun x hx => ?_, hpw'⟩
        have := (hmem' x hx).1
        omega
      · intro x hx
        rcases List.mem_cons.mp hx with rfl | hx'
        · exact ⟨le_refl _, hft⟩
        · have := hmem' x hx'
          constructor <;> omega
    · refine ⟨[], ?_, ?_, ?_, ?_⟩
      · intro fuel _
        exact runWhileAux_done t inc bodyOk fuel f hft
      · simp [hft]
      · simp
      · simp

/-! ### Claim theorems -/

/-- Claim C3: for already-resolved instants and a strictly positive
increment, the While loop terminates and invokes its body exactly
`ceil((to - from) / increment)` times (zero times when `from >= to`),
at strictly increasing instants that all stay strictly below the
exclusive upper bound `to`. -/
theorem while_step_iteration_count (f t inc : Int) (bodyOk : Int → Bool)
    (hinc : 0 < inc) (hb : ∀ x, bodyOk x = true) :
    ∃ L : List Int,
      (∀ fuel, (t - f).toNat ≤ fuel → runWhileAux t inc bodyOk fuel f = some (true, L)) ∧
      L.length = (if f < t then ((t - f).toNat + (inc.toNat - 1)) / inc.toNat else 0) ∧
      List.Pairwise (· < ·) L ∧
      (∀ x ∈ L, f ≤ x ∧ x < t) :=
  while_count_main t inc bodyOk hinc hb _ f rfl

/-- Witness for C3 at `from = 0`, `to = 5`, `increment = 2` (three
iterations, `ceil(5/2)`). -/
theorem while_step_iteration_count_witness :
    ∃ L : List Int,
      (∀ fuel, ((5 : Int) - 0).toNat ≤ fuel →
        runWhileAux 5 2 (fun _ => true) fuel 0 = some (true, L)) ∧
      L.length = (if (0 : Int) < 5 then
        (((5 : Int) - 0).toNat + ((2 : Int).toNat - 1)) / (2 : Int).toNat else 0) ∧
      List.Pairwise (· < ·) L ∧
      (∀ x ∈ L, (0 : Int) ≤ x ∧ x < 5) :=
  while_step_iteration_count 0 5 2 (fun _ => true) (by decide) (fun _ => rfl)

/-- Claim C4: contrary to the claim, `run_while_block` never validates
the increment: `parse_time_expression` accepts `"0d"` and `"-1d"`, and
with a zero or negative increment and `from < to` the loop runs forever
(no fuel suffices) instead of being rejected as a configuration error. -/
theorem while_step_increment_not_validated :
    parse_time_expression "0d" = some 0 ∧
    parse_time_expression "-1d" = some (-86400) ∧
    (∀ fuel, runWhileAux 86400 0 (fun _ => true) fuel 0 = none) ∧
    (∀ fuel, runWhileAux 86400 (-86400) (fun _ => true) fuel 0 = none) := by
  refine ⟨by decide, by decide, fun fuel => ?_, fun fuel => ?_⟩ <;>
    exact runWhileAux_diverges _ _ _ (by decide) (fun _ => rfl) fuel 0 (by decide)

/-- Claim C8: the textual bounds `from = "2024-01-01"` and
`to = "2024-01-04"` both resolve to midnight Jan 1 2024 — the regex
`name` group captures only `"2024"`, the hyphen is consumed as the sign
and the rest is dropped — so with increment `"1d"` the loop body runs
zero times, not three. -/
theorem while_textual_bounds_collapse (ref : DateTime) (freeform : String → Option Int)
    (bodyOk : Int → Bool) (fuel : Nat) :
    parse_expression ref freeform "2024-01-01" = some (toSecs ⟨2024, 1, 1, 0, 0, 0⟩) ∧
    parse_expression ref freeform "2024-01-04" = some (toSecs ⟨2024, 1, 1, 0, 0, 0⟩) ∧
    parse_time_expression "1d" = some 86400 ∧
    runWhileAux (toSecs ⟨2024, 1, 1, 0, 0, 0⟩) 86400 bodyOk fuel
      (toSecs ⟨2024, 1, 1, 0, 0, 0⟩) = some (true, []) :=
  ⟨by rfl, by rfl, by decide, runWhileAux_done _ _ _ _ _ (lt_irrefl _)⟩

/-- Claim C10: the keywords `today` and `now` resolve to exactly the
reference instant captured at construction, time of day included, and
`tomorrow`/`yesterday` shift it by one day keeping the time of day; a
concrete 12:30 reference is not truncated to midnight, and While bounds
built from such instants change the iteration count (24 hourly
iterations from midnight, 12 from noon, to the next midnight). -/
theorem keyword_reference_instants (ref : DateTime) (freeform : String → Option Int) :
    parse_date ref freeform "today" = some (toSecs ref) ∧
    parse_date ref freeform "now" = some (toSecs ref) ∧
    parse_date ref freeform "tomorrow" = some (toSecs ref + 86400) ∧
    parse_date ref freeform "yesterday" = some (toSecs ref - 86400) ∧
    parse_date ⟨2024, 1, 1, 12, 30, 0⟩ freeform "today" = some (toSecs ⟨2024, 1, 1, 12, 30, 0⟩) ∧
    toSecs ⟨2024, 1, 1, 12, 30, 0⟩ ≠ toSecs ⟨2024, 1, 1, 0, 0, 0⟩ ∧
    (runWhileAux (toSecs ⟨2024, 1, 2, 0, 0, 0⟩) 3600 (fun _ => true) 40
      (toSecs ⟨2024, 1, 1, 0, 0, 0⟩)).map (fun r => r.2.length) = some 24 ∧
    (runWhileAux (toSecs ⟨2024, 1, 2, 0, 0, 0⟩) 3600 (fun _ => true) 40
      (toSecs ⟨2024, 1, 1, 12, 0, 0⟩)).map (fun r => r.2.length) = some 12 :=
  ⟨by rfl, by rfl, by rfl, by rfl, by rfl, by decide, by decide, by decide⟩

/-- Counterexample for C6: the 11-digit string `"20240108123"` does not
fail — `%Y%m%d%H%M` lets the minute field match the single digit `3`,
so it resolves to 2024-01-08 12:03. -/
theorem meteo_eleven_digit_accepted :
    parse_meteo_date "20240108123" = some ⟨2024, 1, 8, 12, 3, 0⟩ ∧
    parse_meteo_date "20240108123" ≠ none := by
  constructor <;> decide

/-- Claim C6 (amended): the six even precisions 4/6/8/10/12/14 resolve
as claimed — `"20240108"` is midnight Jan 8 2024 and `"2024010812"` is
12:00 the same day — but the accepted inputs are not exactly those
precisions: a trailing numeric field may also match a single digit, so
9- and 11-digit strings such as `"202401081"` (01:00) and
`"20240108123"` (12:03) are accepted as well, while 5- and 7-digit
strings whose extra digit cannot start a field still fail. -/
theorem meteo_fixed_width_precisions :
    parse_meteo_date "2024" = some ⟨2024, 1, 1, 0, 0, 0⟩ ∧
    parse_meteo_date "202401" = some ⟨2024, 1, 1, 0, 0, 0⟩ ∧
    parse_meteo_date "20240108" = some ⟨2024, 1, 8, 0, 0, 0⟩ ∧
    parse_meteo_date "2024010812" = some ⟨2024, 1, 8, 12, 0, 0⟩ ∧
    parse_meteo_date "202401081230" = some ⟨2024, 1, 8, 12, 30, 0⟩ ∧
    parse_meteo_date "20240108123045" = some ⟨2024, 1, 8, 12, 30, 45⟩ ∧
    parse_meteo_date "202401081" = some ⟨2024, 1, 8, 1, 0, 0⟩ ∧
    parse_meteo_date "20240108123" = some ⟨2024, 1, 8, 12, 3, 0⟩ ∧
    parse_meteo_date "20240" = none ∧
    parse_meteo_date "2024010" = none := by
  refine ⟨by decide, by decide, by decide, by decide, by decide, by decide, by decide,
    by decide, by decide, by decide⟩

/-- Counterexample for C7: an unknown unit letter is not a hard error.
`parse_time_expression "5x"` silently drops the `x` and yields 5
seconds, and `parse_expression "20240101+5x"` silently drops `5x`
entirely, yielding the bare date with a zero offset. -/
theorem duration_unknown_unit_ignored :
    parse_time_expression "5x" = some 5 ∧
    parse_expression refJun noFreeform "20240101+5x" =
      some (toSecs ⟨2024, 1, 1, 0, 0, 0⟩) := by
  constructor <;> decide

/-- Claim C7 (amended): the duration components do appear in the fixed
order days, hours, minutes, seconds, each optional and defaulting to
zero; but `re.match` is not anchored at the end, so an unknown unit
letter, an out-of-order segment or a malformed digit group is silently
dropped from the first point it fails to match — never an
`InvalidExpression` error. -/
theorem duration_segments_order_and_silent_tail (ref : DateTime)
    (freeform : String → Option Int) :
    parse_expression ref freeform "today+1d2h3m4s" = some (toSecs ref + 93784) ∧
    parse_expression ref freeform "today+2d3h" = some (toSecs ref + 183600) ∧
    parse_expression ref freeform "today-1d" = some (toSecs ref - 86400) ∧
    parse_expression ref freeform "today+5x" = some (toSecs ref + 0) ∧
    parse_expression ref freeform "today+3m2h" = some (toSecs ref + 180) ∧
    parse_expression ref freeform "today+d" = some (toSecs ref + 0) ∧
    parse_time_expression "5x" = some 5 ∧
    parse_time_expression "30m" = some 1800 := by
  refine ⟨by rfl, by rfl, by rfl, by rfl, by rfl, by rfl, by decide, by decide⟩

/-- Counterexample for C5: subtask execution is not best-effort.  With
subtasks `["s1", "s2"]` where `s1` fails and `s2` would succeed, the
generator inside `all(...)` stops at `s1`: only `s1` is executed and
`s2` is never attempted, while the overall result is `False`. -/
theorem subtask_sweep_short_circuits :
    runSubtasks (fun n => !(n == "s1")) ["s1", "s2"] = (false, ["s1"]) ∧
    "s2" ∉ (runSubtasks (fun n => !(n == "s1")) ["s1", "s2"]).2 ∧
    (fun n => !(n == "s1")) "s2" = true ∧
    execute_task (fun n => !(n == "s1")) ⟨"p", none, [], 3, ["s1", "s2"]⟩ = false := by
  refine ⟨by decide, by decide, by decide, by decide⟩

/-- Claim C5 (amended): executing a task runs the block and then the
subtasks sequentially only up to and including the first failing
subtask (the `all(...)` generator short-circuits, aborting the later
siblings); the overall result is success exactly when the block
succeeds and every subtask outcome is success, so any subtask failure
makes the task's recorded result failed. -/
theorem execute_task_block_and_subtasks (outcome : String → Bool) (t : SchedTask) :
    execute_task outcome t = (outcome t.name && t.subtasks.all outcome) ∧
    (runSubtasks outcome t.subtasks).2 =
      t.subtasks.takeWhile outcome ++ (t.subtasks.dropWhile outcome).take 1 := by
  rw [execute_task, runSubtasks_eq]
  exact ⟨rfl, rfl⟩

/-- Claim C9: reloading is not atomic.  `update_tasks` rebinds the
shared task list to `[]` and then appends the new tasks one at a time,
so a concurrent tick can observe the empty list or a proper prefix of
the new list — states that are neither the complete pre-reload list nor
the complete post-reload list. -/
theorem reload_partial_list_observable :
    ([] : List SchedTask) ∈
      reloadObservableStates [⟨"A", none, [], 3, []⟩] [⟨"B1", none, [], 3, []⟩, ⟨"B2", none, [], 3, []⟩] ∧
    [⟨"B1", none, [], 3, []⟩] ∈
      reloadObservableStates [⟨"A", none, [], 3, []⟩] [⟨"B1", none, [], 3, []⟩, ⟨"B2", none, [], 3, []⟩] ∧
    ([] : List SchedTask) ≠ [⟨"A", none, [], 3, []⟩] ∧
    ([] : List SchedTask) ≠ [⟨"B1", none, [], 3, []⟩, ⟨"B2", none, [], 3, []⟩] ∧
    [(⟨"B1", none, [], 3, []⟩ : SchedTask)] ≠ [⟨"A", none, [], 3, []⟩] ∧
    [(⟨"B1", none, [], 3, []⟩ : SchedTask)] ≠ [⟨"B1", none, [], 3, []⟩, ⟨"B2", none, [], 3, []⟩] := by
  refine ⟨by decide, by decide, by decide, by decide, by decide, by decide⟩

/-- Claim C2: a task is executed on a tick only when, at the moment of
its eligibility check, every one of its dependency names has a ledger
entry with status success; an empty (or absent) dependency list is
vacuously satisfied. -/
theorem dependency_gating (outcome : String → Bool) (now : String)
    (tasks : List SchedTask) (led : Ledger) (t : SchedTask) (ledAt : Ledger)
    (hmem : (t, ledAt) ∈ (tick outcome now tasks led).2) :
    (∀ d ∈ t.depends_on, lookup ledAt d = some Entry.success) ∧
    check_dependencies ledAt [] = true := by
  refine ⟨?_, rfl⟩
  induction tasks generalizing led with
  | nil => simp [tick] at hmem
  | cons t0 ts ih =>
    by_cases he : eligible led now t0
    · rw [tick, if_pos he] at hmem
      rcases List.mem_cons.mp hmem with heq | hmem'
      · obtain ⟨h1, h2⟩ := Prod.mk.inj heq
        subst h1
        subst h2
        have hdeps : check_dependencies ledAt t.depends_on = true := by
          have h1 := he
          unfold eligible at h1
          simp only [Bool.and_eq_true] at h1
          exact h1.1.2
        intro d hd
        have := (List.all_eq_true.mp hdeps) d hd
        unfold is_task_completed at this
        revert this
        match hl : lookup ledAt d with
        | some Entry.success => intro _; rfl
        | some (Entry.failed k) => intro h; simp at h
        | none => intro h; simp at h
      · exact ih _ hmem'
    · rw [tick, if_neg he] at hmem
      exact ih _ hmem

/-- Witness for C2: task `B` depending on `A` executes on a tick whose
ledger marks `A` successful, and the gate confirms `A`'s entry. -/
theorem dependency_gating_witness :
    lookup [("A", Entry.success)] "A" = some Entry.success :=
  (dependency_gating (fun _ => true) "x" [⟨"B", none, ["A"], 3, []⟩]
    [("A", Entry.success)] ⟨"B", none, ["A"], 3, []⟩ [("A", Entry.success)]
    (by decide)).1 "A" (by decide)

/-- Outcome oracle for a task whose every execution fails. -/
def alwaysFail : String → Bool := fun _ => false

/-- A dependency-free, unscheduled (hence always schedule-eligible)
task named `T` with the given `max_attempts`. -/
def failTask (N : Nat) : SchedTask := ⟨"T", none, [], N, []⟩

/-- The ledger after `k` ticks of the scheduler loop on the single
always-failing task. -/
def failLedger (N : Nat) : Nat → Ledger
  | 0 => []
  | k + 1 => (tick alwaysFail "00:00" [failTask N] (failLedger N k)).1

/-- The executions performed during tick `k + 1`, which starts from the
ledger after `k` ticks. -/
def failExecuted (N k : Nat) : List (SchedTask × Ledger) :=
  (tick alwaysFail "00:00" [failTask N] (failLedger N k)).2

/-- Lookup after a dictionary assignment to the same key. -/
theorem lookup_lset_self (led : Ledger) (n : String) (e : Entry) :
    lookup (lset led n e) n = some e := by
  simp [lookup, lset]

/-- A tick on the single always-failing task: when eligible it executes
and records the failure, otherwise the ledger is untouched. -/
theorem tick_failTask (N : Nat) (led : Ledger) :
    tick alwaysFail "00:00" [failTask N] led =
      (if eligible led "00:00" (failTask N) then
        (handle_failure led "T", [(failTask N, led)])
      else (led, [])) := by
  by_cases h : eligible led "00:00" (failTask N) <;>
    simp [tick, h, execute_task, alwaysFail, failTask]

/-- Eligibility of the always-failing task reduces to the ledger state
of its name: fresh or below the attempt bound. -/
theorem eligible_failTask (N : Nat) (led : Ledger) :
    eligible led "00:00" (failTask N) =
      (match lookup led "T" with
       | none => true
       | some Entry.success => false
       | some (Entry.failed j) => decide (j < N)) := by
  rcases h : lookup led "T" with _ | e
  · simp [eligible, failTask, is_task_completed, check_dependencies, check_max_attempts, h]
  · cases e <;>
      simp [eligible, failTask, is_task_completed, check_dependencies, check_max_attempts, h]

/-- The ledger of the always-failing task after `k` ticks: absent at
the start, then a failed entry whose count climbs by one per executed
tick and saturates at `N`. -/
theorem failLedger_lookup (N : Nat) (hN : 1 ≤ N) :
    ∀ k, lookup (failLedger N k) "T" =
      (if k = 0 then none else some (Entry.failed (min k N))) := by
  intro k
  induction k with
  | zero => rfl
  | succ k ih =>
    show lookup (tick alwaysFail "00:00" [failTask N] (failLedger N k)).1 "T" = _
    rw [tick_failTask, eligible_failTask, ih]
    by_cases h0 : k = 0
    · subst h0
      have h1 : min 1 N = 1 := by omega
      simp [handle_failure, ih, lookup_lset_self, h1]
    · rw [if_neg h0]
      by_cases hk : k < N
      · have hd : min k N < N := by omega
        have h2 : min k N + 1 = min (k + 1) N := by omega
        simp [hd, handle_failure, ih, h0, lookup_lset_self, h2,
          (show ¬ k + 1 = 0 by omega)]
      · have hd : ¬ min k N < N := by omega
        have h3 : min (k + 1) N = min k N := by omega
        simp [hd, ih, h0, h3, (show ¬ k + 1 = 0 by omega)]

/-- Claim C1: with `max_attempts = N ≥ 1` and a task failing on every
execution, the ledger's failure count rises by exactly one per executed
tick (`min k N` after `k` ticks), the task executes on tick `k + 1`
exactly when `k < N` — so it reaches terminal failed after exactly `N`
executions and is never invoked again, `check_max_attempts` returning
`false` from then on — and the attempts count is monotone and never
exceeds `N`. -/
theorem max_attempts_terminal_failure (N : Nat) (hN : 1 ≤ N) (k : Nat) :
    lookup (failLedger N k) "T" = (if k = 0 then none else some (Entry.failed (min k N))) ∧
    (failExecuted N k ≠ [] ↔ k < N) ∧
    (N ≤ k → check_max_attempts (failLedger N k) "T" N = false) ∧
    min k N ≤ min (k + 1) N ∧ min k N ≤ N := by
  have hl := failLedger_lookup N hN k
  refine ⟨hl, ?_, ?_, by omega, by omega⟩
  · rw [failExecuted, tick_failTask, eligible_failTask, hl]
    by_cases h0 : k = 0
    · subst h0
      simp only [if_pos rfl]
      simp
      omega
    · rw [if_neg h0]
      by_cases hk : k < N
      · have hd : min k N < N := by omega
        simp [hd, hk]
      · have hd : ¬ min k N < N := by omega
        simp [hd, hk]
  · intro hNk
    have h0 : ¬ k = 0 := by omega
    have hmin : min k N = N := by omega
    simp [check_max_attempts, hl, h0, hmin]

/-- Witness for C1 at `N = 2`, `k = 3`: after three ticks the entry is
failed with count 2, and tick 4 does not execute the task. -/
theorem max_attempts_terminal_failure_witness :
    lookup (failLedger 2 3) "T" = (if 3 = 0 then none else some (Entry.failed (min 3 2))) ∧
    (failExecuted 2 3 ≠ [] ↔ 3 < 2) ∧
    (2 ≤ 3 → check_max_attempts (failLedger 2 3) "T" 2 = false) ∧
    min 3 2 ≤ min (3 + 1) 2 ∧ min 3 2 ≤ 2 :=
  max_attempts_terminal_failure 2 (by decide) 3
